import Mathlib

/-!
Shallow embedding of the DailyQuest task-completion and gamification engine.

The definitions below are translated from the Python sources of the
DailyQuest-api repository:
- src/task_completions/repository.py (TaskCompletionRepository)
- src/task/service.py (TaskService)
- src/achievements/repository.py (AchievementRepository)
- src/task_completions/router.py (uncomplete_task endpoint)
- src/task/model.py, src/users/model.py, src/achievements/model.py (data model)

Modelling conventions:
- UUID primary keys are modelled as Nat identifiers.
- Python datetimes are modelled as a pair of a calendar-day number and a
  second-of-day; the date() projection of a datetime is the day component.
  The code compares timestamps only through calendar-day windows
  (today_start <= t < today_end) and date() equality, both of which are
  exactly day-number comparison in this model.
- SQLAlchemy tables are lists of records; query(...).first() is List.find?,
  count() is List.countP, db.add appends, db.delete removes the first
  matching row. Mutating an ORM object and committing is modelled by
  replacing the row (by primary key) in its table.
- Python exceptions raised by the engine are modelled with explicit error
  outcomes that carry the database state visible at the raise point.
-/

namespace DailyQuest

/-- Calendar timestamp: a day number and a second within the day.
The date() of a timestamp is its day component. -/
structure Ts where
  day : Nat
  sec : Nat
deriving DecidableEq, Repr

/-- Difficulty enum from src/task/model.py. -/
inductive Difficulty where
  | EASY
  | MEDIUM
  | HARD
deriving DecidableEq, Repr

/-- Achievement requirement keys. The snapshot of src/achievements/model.py
lists only six members (LEVEL_5, LEVEL_10, FIRST_HABIT, FIRST_TODO, STREAK_3,
STREAK_7), but src/achievements/repository.py and src/seed.py reference the
full set below; the declaration of the remaining members is missing from the
snapshot, so they are modelled from the spec (section 4.3: level thresholds
5/10/20/50, first-of-kind, streak thresholds 3/7/30/100, completion-count
thresholds 10/50/100/500, creation-count CREATE_5_HABITS, plus FIRST_LOGIN). -/
inductive AchievementKey where
  | LEVEL_5
  | LEVEL_10
  | LEVEL_20
  | LEVEL_50
  | FIRST_LOGIN
  | FIRST_HABIT
  | FIRST_TODO
  | CREATE_5_HABITS
  | STREAK_3
  | STREAK_7
  | STREAK_30
  | STREAK_100
  | COMPLETE_10_TASKS
  | COMPLETE_50_TASKS
  | COMPLETE_100_TASKS
  | COMPLETE_500_TASKS
deriving DecidableEq, Repr

/-- User row from src/users/model.py: xp, level, coins (identity and
authentication fields that the engine never reads are omitted). -/
structure UserRec where
  id : Nat
  xp : Nat
  level : Nat
  coins : Nat
deriving DecidableEq, Repr

/-- Variant payload of the polymorphic tasks table (src/task/model.py):
a Habit carries current_streak and last_completed, a ToDo carries the
completed flag and completed_at. -/
inductive TaskKind where
  | habit (currentStreak : Nat) (lastCompleted : Option Ts)
  | todo (completed : Bool) (completedAt : Option Ts)
deriving DecidableEq, Repr

/-- Task row from src/task/model.py (fields the engine never reads, such as
title, description and the frequency columns, are omitted). -/
structure TaskRec where
  id : Nat
  userId : Nat
  difficulty : Difficulty
  isActive : Bool
  kind : TaskKind
deriving DecidableEq, Repr

/-- TaskCompletion ledger row from src/task_completions/model.py. -/
structure CompletionRec where
  taskId : Nat
  userId : Nat
  completedDate : Ts
  xpEarned : Nat
deriving DecidableEq, Repr

/-- Achievement reference-data row from src/achievements/model.py. -/
structure AchievementRec where
  id : Nat
  key : AchievementKey
deriving DecidableEq, Repr

/-- UserAchievement row from src/achievements/model.py. -/
structure UserAchievementRec where
  userId : Nat
  achievementId : Nat
deriving DecidableEq, Repr

/-- The relational store: one list per table. -/
structure Db where
  users : List UserRec
  tasks : List TaskRec
  completions : List CompletionRec
  achievements : List AchievementRec
  userAchievements : List UserAchievementRec
deriving DecidableEq, Repr

/-- Tests whether a task row is a Habit (isinstance(task, Habit)). -/
def TaskRec.isHabit (t : TaskRec) : Bool :=
  match t.kind with
  | .habit _ _ => true
  | .todo _ _ => false

/-- Tests whether a task row is a ToDo (isinstance(task, ToDo)). -/
def TaskRec.isTodo (t : TaskRec) : Bool :=
  match t.kind with
  | .habit _ _ => false
  | .todo _ _ => true

/-- isinstance(task, ToDo) and task.completed, from
TaskService._validate_task_completion_eligibility. -/
def TaskRec.isCompletedTodo (t : TaskRec) : Bool :=
  match t.kind with
  | .todo completed _ => completed
  | .habit _ _ => false

/-- TaskCompletionRepository._calculate_xp_earned: the difficulty-to-XP
table EASY 10, MEDIUM 20, HARD 30. The Python dict lookup carries a default
of 10, which is unreachable because the table covers every enum member. -/
def calculate_xp_earned (d : Difficulty) : Nat :=
  match d with
  | .EASY => 10
  | .MEDIUM => 20
  | .HARD => 30

/-- TaskService.calculate_level_from_xp: floor(xp / 100) + 1.
Nat division is floor division, as the Python // operator on
non-negative integers. -/
def calculate_level_from_xp (xp : Nat) : Nat :=
  xp / 100 + 1

/-- TaskService.calculate_xp_needed_for_next_level. -/
def calculate_xp_needed_for_next_level (currentXp : Nat) : Nat :=
  calculate_level_from_xp currentXp * 100 - currentXp

/-- TaskCompletionRepository.update_habit_streak, at the level of the two
habit fields it touches. Given current_streak and last_completed of a habit
and the clock value now, it returns the new (current_streak, last_completed):
never completed gives streak 1; completed with last_completed on the
calendar day before the day of now continues the streak; otherwise the
streak restarts at 1. last_completed is always set to now. -/
def update_habit_streak (currentStreak : Nat) (lastCompleted : Option Ts)
    (now : Ts) : Nat × Option Ts :=
  match lastCompleted with
  | none => (1, some now)
  | some lc =>
      if lc.day = now.day - 1 then
        (currentStreak + 1, some now)
      else
        (1, some now)

/-- TaskRepository.get_task_by_id: first task row with the given id owned by
the given user. -/
def get_task_by_id (db : Db) (taskId userId : Nat) : Option TaskRec :=
  db.tasks.find? (fun t => decide (t.id = taskId ∧ t.userId = userId))

/-- UserRepository.get_user_by_id. -/
def get_user_by_id (db : Db) (userId : Nat) : Option UserRec :=
  db.users.find? (fun u => decide (u.id = userId))

/-- TaskCompletionRepository.check_if_already_completed_today: is there a
ledger row for (task, user) whose completed_date lies in the current
calendar day window [today_start, today_end)? -/
def check_if_already_completed_today (completions : List CompletionRec)
    (taskId userId : Nat) (now : Ts) : Bool :=
  completions.any (fun c =>
    decide (c.taskId = taskId ∧ c.userId = userId ∧ c.completedDate.day = now.day))

/-- AchievementRepository.get_achievement_by_key: first achievement row with
the given requirement_key. -/
def get_achievement_by_key (catalog : List AchievementRec)
    (key : AchievementKey) : Option AchievementRec :=
  catalog.find? (fun a => decide (a.key = key))

/-- Number of UserAchievement rows for one (user, achievement) pair. -/
def pairCount (rows : List UserAchievementRec) (userId achievementId : Nat) : Nat :=
  rows.countP (fun r => decide (r.userId = userId ∧ r.achievementId = achievementId))

/-- AchievementRepository.check_if_user_has_achievement: count of rows for
the pair is positive. -/
def check_if_user_has_achievement (rows : List UserAchievementRec)
    (userId achievementId : Nat) : Bool :=
  decide (0 < pairCount rows userId achievementId)

/-- AchievementRepository.unlock_achievement_for_user: insert a
UserAchievement row unless one already exists for the pair. -/
def unlock_achievement_for_user (rows : List UserAchievementRec)
    (userId : Nat) (ach : AchievementRec) : List UserAchievementRec :=
  if check_if_user_has_achievement rows userId ach.id then
    rows
  else
    rows ++ [⟨userId, ach.id⟩]

/-- Aggregate quantities that AchievementRepository.check_and_unlock_achievements
reads before and between its unlock steps. None of them depend on the
user_achievements table, so they are constant during one evaluation pass. -/
structure AchCtx where
  userLevel : Nat
  isHabit : Bool
  isTodo : Bool
  habitCompletions : Nat
  todoCompletions : Nat
  currentStreak : Nat
  totalCompletions : Nat
  totalHabits : Nat

/-- One conditional unlock step of check_and_unlock_achievements: a guard over
the aggregate context and the requirement key that is looked up and unlocked
when the guard holds. -/
structure AchRule where
  guard : AchCtx → Bool
  key : AchievementKey

/-- The aggregate context computed by check_and_unlock_achievements for
(db, user, completed_task):
- userLevel is getattr(user, level, 1) on the already-updated user row;
- habitCompletions / todoCompletions count ledger rows joined to a task of
  the owner with task_type habit / todo (task ids are primary keys, so the
  join contributes one task per ledger row);
- currentStreak is getattr(completed_task, current_streak, 0);
- totalCompletions counts all ledger rows of the user;
- totalHabits counts the task rows of the user with task_type habit
  (note: no is_active filter appears in the query). -/
def mkAchCtx (db : Db) (user : UserRec) (task : TaskRec) : AchCtx :=
  { userLevel := user.level
    isHabit := task.isHabit
    isTodo := task.isTodo
    habitCompletions := db.completions.countP (fun c =>
      db.tasks.any (fun t => decide (t.id = c.taskId ∧ t.userId = user.id ∧ t.isHabit = true)))
    todoCompletions := db.completions.countP (fun c =>
      db.tasks.any (fun t => decide (t.id = c.taskId ∧ t.userId = user.id ∧ t.isTodo = true)))
    currentStreak :=
      match task.kind with
      | .habit s _ => s
      | .todo _ _ => 0
    totalCompletions := db.completions.countP (fun c => decide (c.userId = user.id))
    totalHabits := db.tasks.countP (fun t => decide (t.userId = user.id ∧ t.isHabit = true)) }

/-- The fifteen conditional unlock steps of check_and_unlock_achievements, in
source order: level thresholds 5/10/20/50, first habit completion, first todo
completion, streak thresholds 3/7/30/100, total-completion thresholds
10/50/100/500, and the created-habit count threshold 5. -/
def achievementRules : List AchRule :=
  [ ⟨fun c => decide (5 ≤ c.userLevel), .LEVEL_5⟩
  , ⟨fun c => decide (10 ≤ c.userLevel), .LEVEL_10⟩
  , ⟨fun c => decide (20 ≤ c.userLevel), .LEVEL_20⟩
  , ⟨fun c => decide (50 ≤ c.userLevel), .LEVEL_50⟩
  , ⟨fun c => c.isHabit && decide (c.habitCompletions = 1), .FIRST_HABIT⟩
  , ⟨fun c => c.isTodo && decide (c.todoCompletions = 1), .FIRST_TODO⟩
  , ⟨fun c => c.isHabit && decide (3 ≤ c.currentStreak), .STREAK_3⟩
  , ⟨fun c => c.isHabit && decide (7 ≤ c.currentStreak), .STREAK_7⟩
  , ⟨fun c => c.isHabit && decide (30 ≤ c.currentStreak), .STREAK_30⟩
  , ⟨fun c => c.isHabit && decide (100 ≤ c.currentStreak), .STREAK_100⟩
  , ⟨fun c => decide (10 ≤ c.totalCompletions), .COMPLETE_10_TASKS⟩
  , ⟨fun c => decide (50 ≤ c.totalCompletions), .COMPLETE_50_TASKS⟩
  , ⟨fun c => decide (100 ≤ c.totalCompletions), .COMPLETE_100_TASKS⟩
  , ⟨fun c => decide (500 ≤ c.totalCompletions), .COMPLETE_500_TASKS⟩
  , ⟨fun c => decide (5 ≤ c.totalHabits), .CREATE_5_HABITS⟩ ]

/-- One step of the evaluation pass: when the guard holds, look the
achievement up by key and unlock it for the user; a missing catalog row is
skipped (the code guards unlock by if achievement). -/
def runAchRule (catalog : List AchievementRec) (userId : Nat) (ctx : AchCtx)
    (rows : List UserAchievementRec) (rule : AchRule) : List UserAchievementRec :=
  if rule.guard ctx then
    match get_achievement_by_key catalog rule.key with
    | some a => unlock_achievement_for_user rows userId a
    | none => rows
  else
    rows

/-- AchievementRepository.check_and_unlock_achievements: run the fifteen
conditional unlock steps in order against the user_achievements table,
returning the table rows after the pass. -/
def check_and_unlock_achievements (db : Db) (user : UserRec) (task : TaskRec) :
    List UserAchievementRec :=
  achievementRules.foldl
    (runAchRule db.achievements user.id (mkAchCtx db user task))
    db.userAchievements

/-- Replace every user row carrying the given id (commit of a mutated
user ORM object). -/
def setUser (l : List UserRec) (userId : Nat) (v : UserRec) : List UserRec :=
  l.map (fun u => if decide (u.id = userId) then v else u)

/-- Replace every task row carrying the given id (commit of a mutated
task ORM object). -/
def setTask (l : List TaskRec) (taskId : Nat) (v : TaskRec) : List TaskRec :=
  l.map (fun t => if decide (t.id = taskId) then v else t)

/-- Errors raised inside TaskCompletionRepository.complete_task
(ValueError in the Python code). -/
inductive RepoErr where
  | taskNotFound
  | userNotFound
deriving DecidableEq, Repr

/-- TaskCompletionRepository.complete_task. In source order: fetch the task
by (id, owner); compute xp_earned from the difficulty; create the ledger row;
fetch the user and add xp_earned to user.xp; for a Habit increment
current_streak by one and set last_completed to now; for a ToDo set
completed to true (completed_at is not touched); raise user.level to
new_xp / 100 + 1 when that exceeds the current level; finally run the
achievement pass against the updated state and commit. Returns the new
store, the ledger row, the updated user and task rows, the streak_updated
flag and the new_streak value. -/
def repoCompleteTask (db : Db) (taskId userId : Nat) (now : Ts) :
    Except RepoErr (Db × CompletionRec × UserRec × TaskRec × Bool × Nat) :=
  match get_task_by_id db taskId userId with
  | none => .error .taskNotFound
  | some task =>
    let xpEarned := calculate_xp_earned task.difficulty
    let completion : CompletionRec :=
      { taskId := taskId, userId := userId, completedDate := now, xpEarned := xpEarned }
    match get_user_by_id db userId with
    | none => .error .userNotFound
    | some user =>
      let user1 : UserRec := { user with xp := user.xp + xpEarned }
      let step :=
        match task.kind with
        | .habit streak _ =>
            (({ task with kind := .habit (streak + 1) (some now) } : TaskRec),
             true, streak + 1)
        | .todo _ completedAt =>
            (({ task with kind := .todo true completedAt } : TaskRec), false, 0)
      let task1 := step.1
      let streakUpdated := step.2.1
      let newStreak := step.2.2
      let newLevel := user1.xp / 100 + 1
      let user2 : UserRec :=
        if user1.level < newLevel then { user1 with level := newLevel } else user1
      let db1 : Db :=
        { db with
          users := setUser db.users userId user2
          tasks := setTask db.tasks taskId task1
          completions := db.completions ++ [completion] }
      let db2 : Db :=
        { db1 with userAchievements := check_and_unlock_achievements db1 user2 task1 }
      .ok (db2, completion, user2, task1, streakUpdated, newStreak)

/-- Errors surfaced by TaskService.complete_task: TaskNotFoundError (also for
a missing user), TaskAlreadyCompletedError, and any other exception mapped
to an infrastructure failure by the router. -/
inductive ServiceErr where
  | taskNotFound
  | alreadyCompleted
  | infra
deriving DecidableEq, Repr

/-- Gamification summary assembled by TaskService._build_completion_response. -/
structure Gamification where
  xpEarned : Nat
  xpBefore : Nat
  xpAfter : Nat
  levelBefore : Nat
  levelAfter : Nat
  levelUpOccurred : Bool
  levelsGained : Nat
deriving DecidableEq, Repr

/-- The structured completion result of TaskService.complete_task (the
human-readable message string is omitted). -/
structure CompletionResponse where
  taskCompletion : CompletionRec
  user : UserRec
  streakUpdated : Bool
  newStreak : Nat
  gamification : Gamification
deriving DecidableEq, Repr

/-- Outcome of one check-in request: success or failure, together with the
store as it stands when the outcome is produced. A failure outcome carries
the store visible at the raise point; the Python exceptions of steps 1-2
unwind before any write, and later exceptions unwind before commit, so the
session rollback leaves the store unchanged in every failure branch. -/
inductive ServiceOutcome where
  | success (db : Db) (resp : CompletionResponse)
  | failure (e : ServiceErr) (db : Db)
deriving DecidableEq, Repr

/-- TaskService.complete_task. In source order: fetch the task by (id,
owner), raising TaskNotFoundError when absent; fetch the user, raising
TaskNotFoundError when absent; validate eligibility (a completed ToDo or a
habit already completed today raises TaskAlreadyCompletedError); run
TaskCompletionRepository.complete_task; recompute the level from the updated
xp against the level before the completion and persist it on a level-up; run
the achievement pass a second time on the updated state; assemble the
response. -/
def serviceCompleteTask (db : Db) (taskId userId : Nat) (now : Ts) : ServiceOutcome :=
  match get_task_by_id db taskId userId with
  | none => .failure .taskNotFound db
  | some task =>
    match get_user_by_id db userId with
    | none => .failure .taskNotFound db
    | some user =>
      if task.isCompletedTodo then .failure .alreadyCompleted db
      else if task.isHabit && check_if_already_completed_today db.completions taskId userId now then
        .failure .alreadyCompleted db
      else
        match repoCompleteTask db taskId userId now with
        | .error _ => .failure .infra db
        | .ok (db1, completion, updatedUser, task1, streakUpdated, newStreak) =>
          let newLevel := calculate_level_from_xp updatedUser.xp
          let levelStep :=
            if user.level < newLevel then
              let u2 : UserRec := { updatedUser with level := newLevel }
              (({ db1 with users := setUser db1.users userId u2 } : Db), u2,
               true, newLevel - user.level)
            else
              (db1, updatedUser, false, 0)
          let db2 := levelStep.1
          let user2 := levelStep.2.1
          let levelUpOccurred := levelStep.2.2.1
          let levelsGained := levelStep.2.2.2
          let db3 : Db :=
            { db2 with userAchievements := check_and_unlock_achievements db2 user2 task1 }
          .success db3
            { taskCompletion := completion
              user := user2
              streakUpdated := streakUpdated
              newStreak := newStreak
              gamification :=
                { xpEarned := completion.xpEarned
                  xpBefore := user.xp
                  xpAfter := user2.xp
                  levelBefore := user.level
                  levelAfter := user2.level
                  levelUpOccurred := levelUpOccurred
                  levelsGained := levelsGained } }

/-- Errors of the uncomplete_task endpoint (both mapped to HTTP 404). -/
inductive UncompleteErr where
  | taskNotFound
  | noCompletionToday
deriving DecidableEq, Repr

/-- The uncomplete_task endpoint of src/task_completions/router.py. In source
order: fetch the task by (id, owner); fetch the first ledger row of
(task, user) whose completed_date lies in the current calendar day; subtract
its xp_earned from the user, floored at zero (Nat subtraction); for a Habit
decrement current_streak, floored at zero, and clear last_completed; for a
ToDo clear the completed flag; delete the ledger row; commit. The user row
is the authenticated current_user. Returns the new store and xp_removed. -/
def uncompleteTask (db : Db) (taskId : Nat) (currentUser : UserRec) (now : Ts) :
    Except UncompleteErr (Db × Nat) :=
  match get_task_by_id db taskId currentUser.id with
  | none => .error .taskNotFound
  | some task =>
    match db.completions.find? (fun c =>
        decide (c.taskId = taskId ∧ c.userId = currentUser.id ∧
          c.completedDate.day = now.day)) with
    | none => .error .noCompletionToday
    | some completion =>
      let user1 : UserRec := { currentUser with xp := currentUser.xp - completion.xpEarned }
      let task1 : TaskRec :=
        match task.kind with
        | .habit streak _ => { task with kind := .habit (streak - 1) none }
        | .todo _ completedAt => { task with kind := .todo false completedAt }
      let db1 : Db :=
        { db with
          users := setUser db.users currentUser.id user1
          tasks := setTask db.tasks taskId task1
          completions := db.completions.eraseP (fun c =>
            decide (c.taskId = taskId ∧ c.userId = currentUser.id ∧
              c.completedDate.day = now.day)) }
      .ok (db1, completion.xpEarned)

/-! Concrete stores used to exercise the engine on the scenarios of the
claims. All identifiers are small naturals standing for UUIDs. -/

/-- A fresh user at 0 xp, level 1. -/
def exUser : UserRec := ⟨1, 0, 1, 0⟩

/-- A habit of exUser with an ongoing streak of 5 whose last completion was
on day 100. -/
def exHabit : TaskRec := ⟨10, 1, .EASY, true, .habit 5 (some ⟨100, 0⟩)⟩

/-- Store holding exUser and exHabit and nothing else. -/
def exHabitDb : Db := ⟨[exUser], [exHabit], [], [], []⟩

/-- A not-yet-completed ToDo of exUser. -/
def exTodo : TaskRec := ⟨20, 1, .MEDIUM, true, .todo false none⟩

/-- Store holding exUser and exTodo. -/
def exTodoDb : Db := ⟨[exUser], [exTodo], [], [], []⟩

/-- A user that already earned 10 xp. -/
def exRichUser : UserRec := ⟨1, 10, 1, 0⟩

/-- A ToDo of exRichUser already marked completed. -/
def exDoneTodo : TaskRec := ⟨20, 1, .EASY, true, .todo true none⟩

/-- Store where exRichUser completed exDoneTodo earlier on day 200 (the
ledger row carries its 10 xp). -/
def exDoneTodoDb : Db := ⟨[exRichUser], [exDoneTodo], [⟨20, 1, ⟨200, 5⟩, 10⟩], [], []⟩

/-- A habit of exRichUser completed earlier on day 200. -/
def exDoneHabit : TaskRec := ⟨30, 1, .EASY, true, .habit 1 (some ⟨200, 5⟩)⟩

/-- Store where exRichUser completed exDoneHabit earlier on day 200. -/
def exDoneHabitDb : Db := ⟨[exRichUser], [exDoneHabit], [⟨30, 1, ⟨200, 5⟩, 10⟩], [], []⟩

/-- A user at 100 xp who already reached level 2. -/
def exLevel2User : UserRec := ⟨1, 100, 2, 0⟩

/-- Store where exLevel2User completed exDoneTodo earlier on day 200. -/
def exLevel2Db : Db := ⟨[exLevel2User], [exDoneTodo], [⟨20, 1, ⟨200, 5⟩, 10⟩], [], []⟩

/-- Habit number i of user 1, never completed, with the given is_active flag. -/
def exPlainHabit (i : Nat) (active : Bool) : TaskRec := ⟨i, 1, .EASY, active, .habit 0 none⟩

/-- Store where user 1 owns five habits of which one is inactive, and the
catalog holds the CREATE_5_HABITS achievement under id 7. -/
def exFiveHabitsDb : Db :=
  ⟨[exUser],
   [exPlainHabit 11 true, exPlainHabit 12 true, exPlainHabit 13 true,
    exPlainHabit 14 false, exPlainHabit 15 true],
   [], [⟨7, .CREATE_5_HABITS⟩], []⟩

/-- Projection of an outcome to the new_streak value of a successful response. -/
def ServiceOutcome.newStreakOf : ServiceOutcome → Option Nat
  | .success _ r => some r.newStreak
  | .failure _ _ => none

/-- Projection of a successful outcome to the stored task row. -/
def ServiceOutcome.taskAfter (o : ServiceOutcome) (taskId userId : Nat) : Option TaskRec :=
  match o with
  | .success db _ => get_task_by_id db taskId userId
  | .failure _ _ => none

/-- Projection of a successful outcome to the stored user_achievements table. -/
def ServiceOutcome.achRowsOf : ServiceOutcome → Option (List UserAchievementRec)
  | .success db _ => some db.userAchievements
  | .failure _ _ => none

/-! Helper lemmas about the unlock primitive and the evaluation pass. -/

theorem pairCount_append (rows : List UserAchievementRec) (r : UserAchievementRec)
    (u a : Nat) :
    pairCount (rows ++ [r]) u a =
      pairCount rows u a + if r.userId = u ∧ r.achievementId = a then 1 else 0 := by
  simp [pairCount, List.countP_append, List.countP_cons]

theorem pairCount_unlock_self (rows : List UserAchievementRec) (uid : Nat)
    (ach : AchievementRec) :
    pairCount (unlock_achievement_for_user rows uid ach) uid ach.id =
      if pairCount rows uid ach.id = 0 then 1 else pairCount rows uid ach.id := by
  unfold unlock_achievement_for_user check_if_user_has_achievement
  by_cases h : 0 < pairCount rows uid ach.id
  · simp [h, Nat.pos_iff_ne_zero.mp h]
  · have h0 : pairCount rows uid ach.id = 0 := Nat.eq_zero_of_not_pos h
    simp [h, h0, pairCount_append]

theorem pairCount_unlock_le_one (rows : List UserAchievementRec) (uid : Nat)
    (ach : AchievementRec) (u a : Nat) (hle : pairCount rows u a ≤ 1) :
    pairCount (unlock_achievement_for_user rows uid ach) u a ≤ 1 := by
  unfold unlock_achievement_for_user check_if_user_has_achievement
  by_cases h : 0 < pairCount rows uid ach.id
  · simpa [h] using hle
  · have h0 : pairCount rows uid ach.id = 0 := Nat.eq_zero_of_not_pos h
    by_cases hpair : uid = u ∧ ach.id = a
    · rcases hpair with ⟨rfl, rfl⟩
      simp [h, pairCount_append, h0]
    · simpa [h, pairCount_append, hpair] using hle

theorem pairCount_runAchRule_le_one (catalog : List AchievementRec) (uid : Nat)
    (ctx : AchCtx) (rows : List UserAchievementRec) (rule : AchRule) (u a : Nat)
    (hle : pairCount rows u a ≤ 1) :
    pairCount (runAchRule catalog uid ctx rows rule) u a ≤ 1 := by
  unfold runAchRule
  by_cases hg : rule.guard ctx = true
  · cases hl : get_achievement_by_key catalog rule.key with
    | none => simpa [hg, hl] using hle
    | some ach => simpa [hg, hl] using pairCount_unlock_le_one rows uid ach u a hle
  · have hg2 : rule.guard ctx = false := by
      revert hg
      cases rule.guard ctx <;> simp
    simpa [hg2] using hle

theorem pairCount_foldl_le_one (catalog : List AchievementRec) (uid : Nat)
    (ctx : AchCtx) (rules : List AchRule) :
    ∀ rows : List UserAchievementRec, ∀ u a : Nat, pairCount rows u a ≤ 1 →
      pairCount (rules.foldl (runAchRule catalog uid ctx) rows) u a ≤ 1 := by
  induction rules with
  | nil => intro rows u a h; simpa using h
  | cons r rs ih =>
      intro rows u a h
      rw [List.foldl_cons]
      exact ih (runAchRule catalog uid ctx rows r) u a
        (pairCount_runAchRule_le_one catalog uid ctx rows r u a h)

theorem pairCount_unlock_pos_iff (rows : List UserAchievementRec) (uid : Nat)
    (ach : AchievementRec) (u a : Nat) :
    0 < pairCount (unlock_achievement_for_user rows uid ach) u a ↔
      0 < pairCount rows u a ∨ (uid = u ∧ ach.id = a) := by
  unfold unlock_achievement_for_user check_if_user_has_achievement
  by_cases h : 0 < pairCount rows uid ach.id
  · simp only [decide_eq_true_eq, if_pos h]
    constructor
    · exact Or.inl
    · rintro (hp | ⟨rfl, rfl⟩)
      · exact hp
      · exact h
  · simp only [decide_eq_true_eq, if_neg h]
    rw [pairCount_append]
    by_cases hpair : uid = u ∧ ach.id = a
    · simp [hpair]
    · simp [hpair]

theorem pairCount_runAchRule_pos_iff (catalog : List AchievementRec) (uid : Nat)
    (ctx : AchCtx) (rows : List UserAchievementRec) (rule : AchRule) (u a : Nat) :
    0 < pairCount (runAchRule catalog uid ctx rows rule) u a ↔
      0 < pairCount rows u a ∨
        (rule.guard ctx = true ∧ ∃ ach, get_achievement_by_key catalog rule.key = some ach ∧
          uid = u ∧ ach.id = a) := by
  unfold runAchRule
  by_cases hg : rule.guard ctx = true
  · cases hl : get_achievement_by_key catalog rule.key with
    | none => simp [hg, hl]
    | some ach =>
        rw [if_pos hg, pairCount_unlock_pos_iff]
        simp [hg, hl]
  · have hg2 : rule.guard ctx = false := by
      revert hg
      cases rule.guard ctx <;> simp
    simp [hg2]

theorem pairCount_foldl_pos_iff (catalog : List AchievementRec) (uid : Nat)
    (ctx : AchCtx) (u a : Nat) (rules : List AchRule) :
    ∀ rows : List UserAchievementRec,
      (0 < pairCount (rules.foldl (runAchRule catalog uid ctx) rows) u a ↔
        0 < pairCount rows u a ∨
          ∃ rule ∈ rules, rule.guard ctx = true ∧
            ∃ ach, get_achievement_by_key catalog rule.key = some ach ∧
              uid = u ∧ ach.id = a) := by
  induction rules with
  | nil => intro rows; simp
  | cons r rs ih =>
      intro rows
      rw [List.foldl_cons, ih (runAchRule catalog uid ctx rows r),
        pairCount_runAchRule_pos_iff]
      constructor
      · rintro ((hp | hr) | ⟨rule, hm, hP⟩)
        · exact Or.inl hp
        · exact Or.inr ⟨r, List.mem_cons_self r rs, hr⟩
        · exact Or.inr ⟨rule, List.mem_cons_of_mem r hm, hP⟩
      · rintro (hp | ⟨rule, hm, hP⟩)
        · exact Or.inl (Or.inl hp)
        · rcases List.mem_cons.mp hm with rfl | hm2
          · exact Or.inl (Or.inr hP)
          · exact Or.inr ⟨rule, hm2, hP⟩

theorem runAchRule_noop (catalog : List AchievementRec) (uid : Nat) (ctx : AchCtx)
    (rows : List UserAchievementRec) (rule : AchRule)
    (h : rule.guard ctx = true → ∀ ach, get_achievement_by_key catalog rule.key = some ach →
      0 < pairCount rows uid ach.id) :
    runAchRule catalog uid ctx rows rule = rows := by
  unfold runAchRule
  by_cases hg : rule.guard ctx = true
  · cases hl : get_achievement_by_key catalog rule.key with
    | none => simp [hg, hl]
    | some ach =>
        rw [if_pos hg]
        unfold unlock_achievement_for_user check_if_user_has_achievement
        simp [h hg ach hl]
  · have hg2 : rule.guard ctx = false := by
      revert hg
      cases rule.guard ctx <;> simp
    simp [hg2]

theorem foldl_runAchRule_noop (catalog : List AchievementRec) (uid : Nat)
    (ctx : AchCtx) (rules : List AchRule) :
    ∀ rows : List UserAchievementRec,
      (∀ rule ∈ rules, rule.guard ctx = true →
        ∀ ach, get_achievement_by_key catalog rule.key = some ach →
          0 < pairCount rows uid ach.id) →
      rules.foldl (runAchRule catalog uid ctx) rows = rows := by
  induction rules with
  | nil => intro rows _; rfl
  | cons r rs ih =>
      intro rows h
      rw [List.foldl_cons,
        runAchRule_noop catalog uid ctx rows r (h r (List.mem_cons_self r rs))]
      exact ih rows (fun rule hm => h rule (List.mem_cons_of_mem r hm))

theorem foldl_runAchRule_idem (catalog : List AchievementRec) (uid : Nat)
    (ctx : AchCtx) (rules : List AchRule) (rows : List UserAchievementRec) :
    rules.foldl (runAchRule catalog uid ctx)
        (rules.foldl (runAchRule catalog uid ctx) rows) =
      rules.foldl (runAchRule catalog uid ctx) rows := by
  apply foldl_runAchRule_noop
  intro rule hm hg ach hl
  exact (pairCount_foldl_pos_iff catalog uid ctx uid ach.id rules rows).mpr
    (Or.inr ⟨rule, hm, hg, ach, hl, rfl, rfl⟩)

/-- Two successful catalog lookups under different keys return rows with
different ids, provided the catalog ids are pairwise distinct. -/
theorem get_achievement_by_key_id_inj {catalog : List AchievementRec}
    (hnd : (catalog.map (fun x => x.id)).Nodup) {k1 k2 : AchievementKey}
    {a1 a2 : AchievementRec}
    (h1 : get_achievement_by_key catalog k1 = some a1)
    (h2 : get_achievement_by_key catalog k2 = some a2)
    (hk : k1 ≠ k2) : a1.id ≠ a2.id := by
  intro hid
  have hm1 := List.mem_of_find?_eq_some h1
  have hm2 := List.mem_of_find?_eq_some h2
  have hp1 : a1.key = k1 := by
    have := List.find?_some h1
    simpa using this
  have hp2 : a2.key = k2 := by
    have := List.find?_some h2
    simpa using this
  have heq : a1 = a2 := List.inj_on_of_nodup_map hnd hm1 hm2 hid
  exact hk (hp1 ▸ hp2 ▸ congrArg AchievementRec.key heq)

/-- Looking a user up by id after replacing that id in the table finds the
replacement, provided some row with the id was present and the replacement
carries the id. -/
theorem find?_setUser (l : List UserRec) (uid : Nat) (u v : UserRec)
    (hfind : l.find? (fun x => decide (x.id = uid)) = some u)
    (hv : v.id = uid) :
    (setUser l uid v).find? (fun x => decide (x.id = uid)) = some v := by
  unfold setUser
  rw [List.find?_map]
  have hcomp : ((fun x => decide (x.id = uid)) ∘
      fun x => if decide (x.id = uid) then v else x) =
      fun x : UserRec => decide (x.id = uid) := by
    funext x
    by_cases hx : x.id = uid
    · simp [hx, hv]
    · simp [hx]
  rw [hcomp, hfind]
  have hu : u.id = uid := by
    have := List.find?_some hfind
    simpa using this
  simp [hu]

/-- A habit task is never a completed ToDo. -/
theorem isHabit_not_completedTodo (t : TaskRec) (h : t.isHabit = true) :
    t.isCompletedTodo = false := by
  cases t with
  | mk id uid d act k =>
      cases k with
      | habit s lc => rfl
      | todo c ca => simp [TaskRec.isHabit] at h

/-- C6: for every xp, calculate_level_from_xp equals floor division by 100
plus one; the documented sample points hold; and the function is monotone
non-decreasing. -/
theorem level_from_xp_formula :
    (∀ xp : Nat, calculate_level_from_xp xp = xp / 100 + 1)
    ∧ calculate_level_from_xp 0 = 1 ∧ calculate_level_from_xp 99 = 1
    ∧ calculate_level_from_xp 100 = 2 ∧ calculate_level_from_xp 1000 = 11
    ∧ (∀ x y : Nat, x ≤ y → calculate_level_from_xp x ≤ calculate_level_from_xp y) :=
  ⟨fun _ => rfl, rfl, rfl, rfl, rfl,
   fun _ _ h => Nat.add_le_add_right (Nat.div_le_div_right h) 1⟩

theorem level_from_xp_formula_witness :
    (3 : Nat) ≤ 250 ∧ calculate_level_from_xp 3 ≤ calculate_level_from_xp 250 :=
  ⟨by decide, level_from_xp_formula.2.2.2.2.2 3 250 (by decide)⟩

/-- C7: the XP table awards exactly 10, 20 and 30 for EASY, MEDIUM and HARD,
and calculate_xp_earned depends on nothing but the difficulty. -/
theorem xp_for_difficulty_table :
    calculate_xp_earned .EASY = 10 ∧ calculate_xp_earned .MEDIUM = 20 ∧
      calculate_xp_earned .HARD = 30 :=
  ⟨rfl, rfl, rfl⟩

/-- C2: under a valid task and user, completing an already-completed ToDo
fails with AlreadyCompleted, and completing a Habit that already has a
ledger row within the current calendar day fails with AlreadyCompleted;
both failures leave the store untouched. -/
theorem completion_rejects_duplicate (db : Db) (taskId userId : Nat) (now : Ts)
    (task : TaskRec) (user : UserRec)
    (htask : get_task_by_id db taskId userId = some task)
    (huser : get_user_by_id db userId = some user) :
    (task.isCompletedTodo = true →
      serviceCompleteTask db taskId userId now = .failure .alreadyCompleted db)
    ∧ (task.isHabit = true →
      (∃ c ∈ db.completions, c.taskId = taskId ∧ c.userId = userId ∧
        c.completedDate.day = now.day) →
      serviceCompleteTask db taskId userId now = .failure .alreadyCompleted db) := by
  constructor
  · intro hdone
    simp [serviceCompleteTask, htask, huser, hdone]
  · intro hhabit hex
    have hflag : check_if_already_completed_today db.completions taskId userId now = true := by
      rw [check_if_already_completed_today, List.any_eq_true]
      rcases hex with ⟨c, hcm, h1, h2, h3⟩
      exact ⟨c, hcm, by simp [h1, h2, h3]⟩
    have hnc := isHabit_not_completedTodo task hhabit
    simp [serviceCompleteTask, htask, huser, hnc, hhabit, hflag]

theorem completion_rejects_duplicate_witness :
    get_task_by_id exDoneTodoDb 20 1 = some exDoneTodo
    ∧ get_user_by_id exDoneTodoDb 1 = some exRichUser
    ∧ exDoneTodo.isCompletedTodo = true
    ∧ serviceCompleteTask exDoneTodoDb 20 1 ⟨200, 10⟩ =
        .failure .alreadyCompleted exDoneTodoDb
    ∧ serviceCompleteTask exDoneHabitDb 30 1 ⟨200, 10⟩ =
        .failure .alreadyCompleted exDoneHabitDb :=
  ⟨rfl, rfl, rfl,
   (completion_rejects_duplicate exDoneTodoDb 20 1 ⟨200, 10⟩ exDoneTodo exRichUser
     rfl rfl).1 rfl,
   (completion_rejects_duplicate exDoneHabitDb 30 1 ⟨200, 10⟩ exDoneHabit exRichUser
     rfl rfl).2 rfl ⟨⟨30, 1, ⟨200, 5⟩, 10⟩, by decide, rfl, rfl, rfl⟩⟩

/-- C5: whenever a check-in request fails with TaskNotFound or
AlreadyCompleted, the store carried by the failure outcome is exactly the
pre-request store: the validation errors are raised before any mutation. -/
theorem validation_failure_preserves_state (db db1 : Db) (taskId userId : Nat)
    (now : Ts) (e : ServiceErr)
    (hrun : serviceCompleteTask db taskId userId now = .failure e db1)
    (he : e = .taskNotFound ∨ e = .alreadyCompleted) : db1 = db := by
  unfold serviceCompleteTask at hrun
  repeat' split at hrun
  all_goals simp_all

theorem validation_failure_preserves_state_witness :
    serviceCompleteTask exDoneTodoDb 20 1 ⟨200, 10⟩ =
      .failure .alreadyCompleted exDoneTodoDb
    ∧ (ServiceErr.alreadyCompleted = .taskNotFound ∨
        ServiceErr.alreadyCompleted = .alreadyCompleted)
    ∧ exDoneTodoDb = exDoneTodoDb :=
  ⟨rfl, Or.inr rfl,
   validation_failure_preserves_state exDoneTodoDb exDoneTodoDb 20 1 ⟨200, 10⟩
     .alreadyCompleted rfl (Or.inr rfl)⟩

/-- C4: the unlock operation is idempotent: starting from at most one row for
the pair, two unlock calls leave exactly one row; one full evaluation pass
preserves the at-most-one-row-per-pair invariant; and re-running the whole
evaluation pass on the state it produced changes nothing. -/
theorem unlock_achievement_idempotent :
    (∀ (rows : List UserAchievementRec) (uid : Nat) (ach : AchievementRec),
      pairCount rows uid ach.id ≤ 1 →
      pairCount (unlock_achievement_for_user
        (unlock_achievement_for_user rows uid ach) uid ach) uid ach.id = 1)
    ∧ (∀ (db : Db) (user : UserRec) (task : TaskRec),
      (∀ u a, pairCount db.userAchievements u a ≤ 1) →
      ∀ u a, pairCount (check_and_unlock_achievements db user task) u a ≤ 1)
    ∧ (∀ (db : Db) (user : UserRec) (task : TaskRec),
      check_and_unlock_achievements
        { db with userAchievements := check_and_unlock_achievements db user task }
        user task
        = check_and_unlock_achievements db user task) := by
  refine ⟨?_, ?_, ?_⟩
  · intro rows uid ach h
    rw [pairCount_unlock_self, pairCount_unlock_self]
    split_ifs <;> omega
  · intro db user task h u a
    unfold check_and_unlock_achievements
    exact pairCount_foldl_le_one db.achievements user.id (mkAchCtx db user task)
      achievementRules db.userAchievements u a (h u a)
  · intro db user task
    exact foldl_runAchRule_idem db.achievements user.id (mkAchCtx db user task)
      achievementRules db.userAchievements

theorem unlock_achievement_idempotent_witness :
    pairCount ([] : List UserAchievementRec) 1 7 ≤ 1
    ∧ pairCount (unlock_achievement_for_user
        (unlock_achievement_for_user [] 1 ⟨7, .CREATE_5_HABITS⟩) 1
        ⟨7, .CREATE_5_HABITS⟩) 1 7 = 1
    ∧ pairCount (check_and_unlock_achievements exFiveHabitsDb exUser
        (exPlainHabit 11 true)) 1 7 ≤ 1
    ∧ check_and_unlock_achievements
        { exFiveHabitsDb with
          userAchievements :=
            check_and_unlock_achievements exFiveHabitsDb exUser (exPlainHabit 11 true) }
        exUser (exPlainHabit 11 true)
        = check_and_unlock_achievements exFiveHabitsDb exUser (exPlainHabit 11 true) :=
  ⟨by decide,
   unlock_achievement_idempotent.1 [] 1 ⟨7, .CREATE_5_HABITS⟩ (by decide),
   unlock_achievement_idempotent.2.1 exFiveHabitsDb exUser (exPlainHabit 11 true)
     (fun u a => by simp [exFiveHabitsDb, pairCount]) 1 7,
   unlock_achievement_idempotent.2.2 exFiveHabitsDb exUser (exPlainHabit 11 true)⟩

/-- C9 counterexample: in a store where user 1 owns five habit rows of which
one is inactive (so only four active habits), a completion still unlocks
CREATE_5_HABITS: the creation-count query does not filter on is_active. -/
theorem create_habits_counts_inactive_counterexample :
    exFiveHabitsDb.tasks.countP
        (fun t => decide (t.userId = 1 ∧ t.isHabit = true ∧ t.isActive = true)) = 4
    ∧ ServiceOutcome.achRowsOf (serviceCompleteTask exFiveHabitsDb 11 1 ⟨103, 0⟩) =
        some [⟨1, 7⟩] :=
  ⟨rfl, rfl⟩

/-- C9 (amended): the CREATE_5_HABITS achievement is unlocked by the
evaluation pass exactly when it was already unlocked or the count of ALL the
habit rows of the user (active or not) is at least 5, provided catalog ids
are pairwise distinct and the catalog holds the achievement. -/
theorem create_five_habits_unlock_characterization (db : Db) (user : UserRec)
    (task : TaskRec) (a : AchievementRec)
    (hnd : (db.achievements.map (fun x => x.id)).Nodup)
    (ha : get_achievement_by_key db.achievements .CREATE_5_HABITS = some a) :
    0 < pairCount (check_and_unlock_achievements db user task) user.id a.id ↔
      0 < pairCount db.userAchievements user.id a.id ∨
        5 ≤ db.tasks.countP (fun t => decide (t.userId = user.id ∧ t.isHabit = true)) := by
  unfold check_and_unlock_achievements
  rw [pairCount_foldl_pos_iff]
  constructor
  · rintro (hp | ⟨rule, hm, hg, ach, hl, hu, hid⟩)
    · exact Or.inl hp
    · simp only [achievementRules, List.mem_cons, List.not_mem_nil, or_false] at hm
      rcases hm with rfl | rfl | rfl | rfl | rfl | rfl | rfl | rfl | rfl | rfl | rfl
        | rfl | rfl | rfl | rfl
      case inl =>
        exact absurd hid (get_achievement_by_key_id_inj hnd hl ha (by decide))
      all_goals
        try exact absurd hid (get_achievement_by_key_id_inj hnd hl ha (by decide))
      -- remaining goal: the CREATE_5_HABITS rule itself
      rw [ha] at hl
      have hach : a = ach := by
        injection hl
      subst hach
      have h5 : 5 ≤ (mkAchCtx db user task).totalHabits := of_decide_eq_true hg
      exact Or.inr (by simpa [mkAchCtx] using h5)
  · rintro (hp | h5)
    · exact Or.inl hp
    · refine Or.inr ⟨⟨fun c => decide (5 ≤ c.totalHabits), .CREATE_5_HABITS⟩, ?_, ?_,
        a, ha, rfl, rfl⟩
      · simp [achievementRules]
      · exact decide_eq_true (by simpa [mkAchCtx] using h5)

theorem create_five_habits_unlock_characterization_witness :
    (exFiveHabitsDb.achievements.map (fun x => x.id)).Nodup
    ∧ get_achievement_by_key exFiveHabitsDb.achievements .CREATE_5_HABITS =
        some ⟨7, .CREATE_5_HABITS⟩
    ∧ (0 < pairCount (check_and_unlock_achievements exFiveHabitsDb exUser
          (exPlainHabit 11 true)) exUser.id 7 ↔
        0 < pairCount exFiveHabitsDb.userAchievements exUser.id 7 ∨
          5 ≤ exFiveHabitsDb.tasks.countP
            (fun t => decide (t.userId = exUser.id ∧ t.isHabit = true))) :=
  ⟨by decide, rfl,
   create_five_habits_unlock_characterization exFiveHabitsDb exUser
     (exPlainHabit 11 true) ⟨7, .CREATE_5_HABITS⟩ (by decide) rfl⟩

/-- A successful run of the repository completion writes back exactly one
user row: the fetched user with xp_earned added to its xp (and possibly a
raised level); the users table is otherwise untouched. -/
theorem repoCompleteTask_ok_spec (db : Db) (taskId userId : Nat) (now : Ts)
    (user : UserRec) (db2 : Db) (completion : CompletionRec) (u2 : UserRec)
    (task1 : TaskRec) (s : Bool) (n : Nat)
    (huser : get_user_by_id db userId = some user)
    (h : repoCompleteTask db taskId userId now = .ok (db2, completion, u2, task1, s, n)) :
    db2.users = setUser db.users userId u2 ∧ u2.id = user.id ∧
      u2.xp = user.xp + completion.xpEarned := by
  unfold repoCompleteTask at h
  split at h
  · simp at h
  · rename_i task htask
    split at h
    · rename_i hnone
      rw [huser] at hnone
      simp at hnone
    · rename_i user0 huser0
      rw [huser] at huser0
      injection huser0 with huu
      subst huu
      simp only [Except.ok.injEq, Prod.mk.injEq] at h
      obtain ⟨hdb2, hcomp, hu2, htask1, hs, hn⟩ := h
      subst hdb2 hcomp hu2
      refine ⟨rfl, ?_, ?_⟩
      · split <;> rfl
      · split <;> rfl

/-- A successful check-in stores a user row whose xp is the fetched user
xp plus the awarded xp, and reports exactly these values in the
gamification summary. -/
theorem serviceCompleteTask_success_xp (db : Db) (taskId userId : Nat) (now : Ts)
    (user : UserRec) (db1 : Db) (resp : CompletionResponse)
    (huser : get_user_by_id db userId = some user)
    (hrun : serviceCompleteTask db taskId userId now = .success db1 resp) :
    ((get_user_by_id db1 userId).map (fun u => u.xp)) =
      some (user.xp + resp.gamification.xpEarned)
    ∧ resp.gamification.xpBefore = user.xp
    ∧ resp.gamification.xpAfter = user.xp + resp.gamification.xpEarned
    ∧ user.xp ≤ user.xp + resp.gamification.xpEarned := by
  have huid : user.id = userId := by
    have := List.find?_some huser
    simpa using this
  unfold serviceCompleteTask at hrun
  split at hrun
  · simp at hrun
  · rename_i task htask
    split at hrun
    · simp at hrun
    · rename_i user0 huser0
      rw [huser] at huser0
      injection huser0 with huu
      subst huu
      split at hrun
      · simp at hrun
      · split at hrun
        · simp at hrun
        · split at hrun
          · simp at hrun
          · rename_i res db2 completion updatedUser task1 sU nS hrepo
            obtain ⟨husers2, hid2, hxp2⟩ :=
              repoCompleteTask_ok_spec db taskId userId now user db2 completion
                updatedUser task1 sU nS huser hrepo
            simp only [ServiceOutcome.success.injEq] at hrun
            obtain ⟨hdb1, hresp⟩ := hrun
            subst hdb1 hresp
            have hupid : updatedUser.id = userId := by rw [hid2, huid]
            have hfind1 : (setUser db.users userId updatedUser).find?
                (fun x => decide (x.id = userId)) = some updatedUser :=
              find?_setUser db.users userId user updatedUser huser hupid
            by_cases hlt : user.level < calculate_level_from_xp updatedUser.xp
            · simp only [hlt, if_true]
              refine ⟨?_, trivial, hxp2, Nat.le_add_right _ _⟩
              simp only [get_user_by_id]
              rw [husers2]
              rw [find?_setUser (setUser db.users userId updatedUser) userId
                updatedUser
                { id := updatedUser.id, xp := updatedUser.xp,
                  level := calculate_level_from_xp updatedUser.xp,
                  coins := updatedUser.coins } hfind1 hupid]
              simp [hxp2]
            · simp only [hlt, if_false]
              refine ⟨?_, trivial, hxp2, Nat.le_add_right _ _⟩
              simp only [get_user_by_id]
              rw [husers2, hfind1]
              simp [hxp2]

/-- A successful uncomplete stores a user row with the xp_earned of the
deleted ledger row subtracted from the xp (floored at zero by Nat
subtraction) and with the level untouched. -/
theorem uncompleteTask_ok_spec (db : Db) (taskId : Nat) (user : UserRec) (now : Ts)
    (db1 : Db) (x : Nat)
    (huser : get_user_by_id db user.id = some user)
    (h : uncompleteTask db taskId user now = .ok (db1, x)) :
    ((get_user_by_id db1 user.id).map (fun u => u.xp)) = some (user.xp - x)
    ∧ ((get_user_by_id db1 user.id).map (fun u => u.level)) = some user.level
    ∧ user.xp - x ≤ user.xp := by
  unfold uncompleteTask at h
  split at h
  · simp at h
  · rename_i task htask
    split at h
    · simp at h
    · rename_i completion hcomp
      simp only [Except.ok.injEq, Prod.mk.injEq] at h
      obtain ⟨hdb1, hx⟩ := h
      subst hdb1 hx
      have hfind : (setUser db.users user.id
          { user with xp := user.xp - completion.xpEarned }).find?
          (fun u => decide (u.id = user.id)) =
          some { user with xp := user.xp - completion.xpEarned } :=
        find?_setUser db.users user.id user _ huser rfl
      refine ⟨?_, ?_, Nat.sub_le _ _⟩
      · simp only [get_user_by_id]
        rw [hfind]
        rfl
      · simp only [get_user_by_id]
        rw [hfind]
        rfl

/-- Store produced by uncompleting the day-200 completion of exDoneTodo for
exRichUser: the ledger row is gone, the ToDo is unmarked, the 10 xp are
taken back. -/
def exUndoneDb : Db := ⟨[⟨1, 0, 1, 0⟩], [⟨20, 1, .EASY, true, .todo false none⟩], [], [], []⟩

/-- Store produced by uncompleting the day-200 completion of exDoneTodo for
exLevel2User: xp drops from 100 to 90 while the level stays 2. -/
def exLevel2UndoneDb : Db := ⟨[⟨1, 90, 2, 0⟩], [⟨20, 1, .EASY, true, .todo false none⟩], [], [], []⟩

/-- Store produced by completing exTodo in exTodoDb on day 103. -/
def exTodoRunDb : Db :=
  ⟨[⟨1, 20, 1, 0⟩], [⟨20, 1, .MEDIUM, true, .todo true none⟩],
   [⟨20, 1, ⟨103, 0⟩, 20⟩], [], []⟩

/-- Response produced by completing exTodo in exTodoDb on day 103. -/
def exTodoRunResp : CompletionResponse :=
  ⟨⟨20, 1, ⟨103, 0⟩, 20⟩, ⟨1, 20, 1, 0⟩, false, 0, ⟨20, 0, 20, 1, 1, false, 0⟩⟩

/-- C1: completing exHabit (streak 5, last completed on day 100) on day 103
does not reset the streak: the completion operation stores streak 6 and
reports new_streak 6, although the repository contains a streak routine
(update_habit_streak, never invoked by the completion path) that returns 1
for exactly these inputs. -/
theorem completion_streak_no_reset_eval :
    ServiceOutcome.newStreakOf (serviceCompleteTask exHabitDb 10 1 ⟨103, 0⟩) = some 6
    ∧ ServiceOutcome.taskAfter (serviceCompleteTask exHabitDb 10 1 ⟨103, 0⟩) 10 1 =
        some ⟨10, 1, .EASY, true, .habit 6 (some ⟨103, 0⟩)⟩
    ∧ update_habit_streak 5 (some ⟨100, 0⟩) ⟨103, 0⟩ = (1, some ⟨103, 0⟩) :=
  ⟨rfl, rfl, rfl⟩

/-- C3: completing the not-yet-completed ToDo exTodo stores it with
completed true but completed_at still null: the completion operation never
writes completed_at, so the invariant that completed implies a non-null
completed_at is not established. -/
theorem todo_completion_leaves_completed_at_null :
    exTodo.kind = .todo false none
    ∧ ServiceOutcome.taskAfter (serviceCompleteTask exTodoDb 20 1 ⟨103, 0⟩) 20 1 =
        some ⟨20, 1, .MEDIUM, true, .todo true none⟩ :=
  ⟨rfl, rfl⟩

/-- C8 counterexample: uncompleting the completion of exDoneTodo takes
exRichUser from 10 xp down to 0 xp, so xp is not monotonically
non-decreasing across the core operations. -/
theorem uncomplete_lowers_xp_counterexample :
    get_user_by_id exDoneTodoDb 1 = some exRichUser
    ∧ exRichUser.xp = 10
    ∧ uncompleteTask exDoneTodoDb 20 exRichUser ⟨200, 10⟩ = .ok (exUndoneDb, 10)
    ∧ get_user_by_id exUndoneDb 1 = some ⟨1, 0, 1, 0⟩
    ∧ (0 : Nat) < 10 :=
  ⟨rfl, rfl, rfl, rfl, by decide⟩

/-- C8 (amended): a successful completion adds exactly the awarded xp to the
stored user xp (so completion never lowers xp), while a successful
uncomplete subtracts the deleted xp_earned from the stored user xp, floored
at zero, and so never raises it. -/
theorem xp_change_characterization :
    (∀ (db : Db) (taskId userId : Nat) (now : Ts) (user : UserRec) (db1 : Db)
      (resp : CompletionResponse),
      get_user_by_id db userId = some user →
      serviceCompleteTask db taskId userId now = .success db1 resp →
      ((get_user_by_id db1 userId).map (fun u => u.xp)) =
        some (user.xp + resp.gamification.xpEarned)
      ∧ user.xp ≤ user.xp + resp.gamification.xpEarned)
    ∧ (∀ (db : Db) (taskId : Nat) (user : UserRec) (now : Ts) (db1 : Db) (x : Nat),
      get_user_by_id db user.id = some user →
      uncompleteTask db taskId user now = .ok (db1, x) →
      ((get_user_by_id db1 user.id).map (fun u => u.xp)) = some (user.xp - x)
      ∧ user.xp - x ≤ user.xp) := by
  constructor
  · intro db taskId userId now user db1 resp hu hr
    obtain ⟨h1, _, _, h4⟩ :=
      serviceCompleteTask_success_xp db taskId userId now user db1 resp hu hr
    exact ⟨h1, h4⟩
  · intro db taskId user now db1 x hu hr
    obtain ⟨h1, _, h3⟩ := uncompleteTask_ok_spec db taskId user now db1 x hu hr
    exact ⟨h1, h3⟩

theorem xp_change_characterization_witness :
    get_user_by_id exTodoDb 1 = some exUser
    ∧ serviceCompleteTask exTodoDb 20 1 ⟨103, 0⟩ = .success exTodoRunDb exTodoRunResp
    ∧ ((get_user_by_id exTodoRunDb 1).map (fun u => u.xp)) =
        some (exUser.xp + exTodoRunResp.gamification.xpEarned)
    ∧ get_user_by_id exDoneTodoDb 1 = some exRichUser
    ∧ uncompleteTask exDoneTodoDb 20 exRichUser ⟨200, 10⟩ = .ok (exUndoneDb, 10)
    ∧ ((get_user_by_id exUndoneDb 1).map (fun u => u.xp)) = some (exRichUser.xp - 10) :=
  ⟨rfl, rfl,
   (xp_change_characterization.1 exTodoDb 20 1 ⟨103, 0⟩ exUser exTodoRunDb
     exTodoRunResp rfl rfl).1,
   rfl, rfl,
   (xp_change_characterization.2 exDoneTodoDb 20 exRichUser ⟨200, 10⟩
     exUndoneDb 10 rfl rfl).1⟩

/-- C10: a successful uncomplete never changes the stored user level even
though it subtracts xp, and concretely, after uncompleting the day-200
completion of exLevel2User the stored level 2 strictly exceeds the level
recomputed from the remaining 90 xp. -/
theorem uncomplete_preserves_level :
    (∀ (db : Db) (taskId : Nat) (user : UserRec) (now : Ts) (db1 : Db) (x : Nat),
      get_user_by_id db user.id = some user →
      uncompleteTask db taskId user now = .ok (db1, x) →
      ((get_user_by_id db1 user.id).map (fun u => u.level)) = some user.level)
    ∧ uncompleteTask exLevel2Db 20 exLevel2User ⟨200, 10⟩ = .ok (exLevel2UndoneDb, 10)
    ∧ ((get_user_by_id exLevel2UndoneDb 1).map (fun u => u.level)) = some 2
    ∧ ((get_user_by_id exLevel2UndoneDb 1).map (fun u => calculate_level_from_xp u.xp)) =
        some 1
    ∧ calculate_level_from_xp 90 < 2 := by
  refine ⟨?_, rfl, rfl, rfl, by decide⟩
  intro db taskId user now db1 x hu hr
  exact (uncompleteTask_ok_spec db taskId user now db1 x hu hr).2.1

theorem uncomplete_preserves_level_witness :
    get_user_by_id exLevel2Db 1 = some exLevel2User
    ∧ uncompleteTask exLevel2Db 20 exLevel2User ⟨200, 10⟩ = .ok (exLevel2UndoneDb, 10)
    ∧ ((get_user_by_id exLevel2UndoneDb 1).map (fun u => u.level)) =
        some exLevel2User.level :=
  ⟨rfl, rfl,
   uncomplete_preserves_level.1 exLevel2Db 20 exLevel2User ⟨200, 10⟩
     exLevel2UndoneDb 10 rfl rfl⟩

end DailyQuest
